import Mathlib

/-
Verification of the room-transcription relay system
(example_castle/room_stream.py and example_castle/central_hub.py).

The Python source is shallowly embedded:
  * JSON wire messages become the `Event` structure (absent JSON keys are
    `Option` fields defaulting to `none`; the float `confidence: 0.9` is
    carried as `confidence_tenths = some 9`; unix-second float timestamps
    are abstracted to `Nat` clock values, supplied as a `now` argument
    where the source calls `time.time()`).
  * The hub's dict-based globals (`connected_rooms`, `transcription_history`,
    `room_stats`) become association lists with Python-dict semantics:
    assignment to an existing key updates it in place, a new key is appended
    at the end, `defaultdict` reads of a missing key yield the default.
  * Network and recorder side effects become an explicit `AEffect` trace;
    nondeterministic network outcomes (whether `websockets.connect` or
    `websocket.send` succeeds) are supplied by a `NetEnv` schedule that is
    consumed as the agent runs.  A send on an already-closed socket
    deterministically raises `ConnectionClosed`, matching the websockets
    library.
  * `send_to_hub` and `connect_to_hub` recurse into one another in the
    source (a failed send reconnects, a fresh connection sends a greeting);
    the embedding bounds that recursion with an explicit `fuel` argument.
-/

namespace Castle

/-- Wire message types: the `type` field of an agent-to-hub JSON message
(`connection`, `disconnection`, `partial`, `final`). -/
inductive MsgType where
  | connection
  | disconnection
  | partialMsg
  | finalMsg
deriving DecidableEq

/-- One agent-to-hub wire message / transcript event.  Optional fields model
JSON keys that a given message type omits. -/
structure Event where
  type : MsgType
  room : String
  text : Option String := none
  timestamp : Nat := 0
  id : Option Nat := none
  confidence_tenths : Option Nat := none
  status : Option String := none
deriving DecidableEq

/-- A room session entry of the hub's `connected_rooms` dict:
`{'status': ..., 'last_seen': ...}`. -/
structure Session where
  status : String
  last_seen : Nat
deriving DecidableEq

/-- Association-list lookup with Python-dict key semantics. -/
def lookupA (m : List (String × α)) (k : String) : Option α :=
  match m with
  | [] => none
  | (k', v) :: rest => if k' = k then some v else lookupA rest k

/-- Python-dict assignment `m[k] = v`: update in place, append a new key. -/
def upsertA (m : List (String × α)) (k : String) (v : α) : List (String × α) :=
  match m with
  | [] => [(k, v)]
  | (k', v') :: rest => if k' = k then (k, v) :: rest else (k', v') :: upsertA rest k v

/-- `defaultdict` read-then-mutate `m[k] = f(m.get(k, d))`. -/
def updD (m : List (String × α)) (k : String) (d : α) (f : α → α) : List (String × α) :=
  match m with
  | [] => [(k, f d)]
  | (k', v') :: rest => if k' = k then (k', f v') :: rest else (k', v') :: updD rest k d f

/-- In-place mutation `connected_rooms[k]['status'] = s`. -/
def setStatus (m : List (String × Session)) (k : String) (s : String) :
    List (String × Session) :=
  match m with
  | [] => []
  | (k', v) :: rest =>
    if k' = k then (k', { v with status := s }) :: rest else (k', v) :: setStatus rest k s

/-- The hub's shared mutable globals, guarded by `_lock` in the source. -/
structure HubState where
  connected_rooms : List (String × Session)
  transcription_history : List (String × List Event)
  room_stats : List (String × Nat)
deriving DecidableEq

/-- Hub state at module load: all three dicts empty. -/
def hubInit : HubState := ⟨[], [], []⟩

/-- A viewer-facing `socketio.emit` performed by the hub. -/
inductive Emit where
  | room_connected (room : String)
  | room_disconnected (room : String)
  | transcription_update (data : Event)
deriving DecidableEq

/-- `CentralHub.process_room_message`: the locked registry mutation followed
by the viewer broadcast performed outside the lock. -/
def processRoomMessage (now : Nat) (data : Event) (st : HubState) :
    HubState × List Emit :=
  let room := data.room
  let st1 :=
    match data.type with
    | .connection =>
      { st with connected_rooms := upsertA st.connected_rooms room ⟨"connected", now⟩ }
    | .disconnection =>
      if (lookupA st.connected_rooms room).isSome then
        { st with connected_rooms := setStatus st.connected_rooms room "disconnected" }
      else st
    | .partialMsg =>
      { st with connected_rooms := upsertA st.connected_rooms room ⟨"connected", now⟩ }
    | .finalMsg =>
      { st with
        connected_rooms := upsertA st.connected_rooms room ⟨"connected", now⟩,
        transcription_history :=
          updD st.transcription_history room [] (fun h => h ++ [data]),
        room_stats := updD st.room_stats room 0 (fun n => n + 1) }
  let emits :=
    match data.type with
    | .connection => [Emit.room_connected room]
    | .disconnection => [Emit.room_disconnected room]
    | .partialMsg => [Emit.transcription_update data]
    | .finalMsg => [Emit.transcription_update data]
  (st1, emits)

/-- `handle_room_status_request`: one `room_connected` emit per entry of
`connected_rooms` whose status is `'connected'`, in dict iteration order. -/
def handleRoomStatusRequest (st : HubState) : List Emit :=
  st.connected_rooms.filterMap
    (fun p => if p.2.status = "connected" then some (Emit.room_connected p.1) else none)

/-- An inbound frame on the agent-facing websocket: either text that fails
`json.loads` (`malformed`) or a decoded message. -/
inductive RawMsg where
  | malformed
  | valid (data : Event)
deriving DecidableEq

/-- One iteration of `connection_handler`'s `async for` loop.  The handler
state is the registry plus the connection's remembered `room_name`.
A malformed frame is logged and skipped; a frame whose `room` is falsy
(absent keys decode to the empty string) is skipped; otherwise the first
seen room is remembered and the message is processed. -/
def handlerStep (now : Nat) (s : HubState × Option String) (m : RawMsg) :
    (HubState × Option String) × List Emit :=
  match m with
  | .malformed => (s, [])
  | .valid data =>
    if data.room = "" then (s, [])
    else
      let rn := match s.2 with
        | none => some data.room
        | some r => some r
      (((processRoomMessage now data s.1).1, rn), (processRoomMessage now data s.1).2)

/-- Run the handler loop over a whole inbound frame sequence. -/
def runMsgs (now : Nat) : List RawMsg → (HubState × Option String) →
    (HubState × Option String) × List Emit
  | [], s => (s, [])
  | m :: ms, s =>
    ((runMsgs now ms (handlerStep now s m).1).1,
     (handlerStep now s m).2 ++ (runMsgs now ms (handlerStep now s m).1).2)

/-- `connection_handler` end to end: iterate the inbound frames, then the
`finally` block synthesizes a `disconnection` for the identified room. -/
def connectionHandler (now : Nat) (msgs : List RawMsg) (st : HubState) :
    HubState × List Emit :=
  match (runMsgs now msgs (st, none)).1.2 with
  | none => ((runMsgs now msgs (st, none)).1.1, (runMsgs now msgs (st, none)).2)
  | some rn =>
    ((processRoomMessage now { type := MsgType.disconnection, room := rn }
        (runMsgs now msgs (st, none)).1.1).1,
     (runMsgs now msgs (st, none)).2 ++
       (processRoomMessage now { type := MsgType.disconnection, room := rn }
         (runMsgs now msgs (st, none)).1.1).2)

/-- Per-room stats counter, with the `defaultdict` default of 0. -/
def statsOf (st : HubState) (r : String) : Nat :=
  (lookupA st.room_stats r).getD 0

/-- Per-room transcript history, with the `defaultdict` default of `[]`. -/
def histOf (st : HubState) (r : String) : List Event :=
  (lookupA st.transcription_history r).getD []

/-- The stats/history agreement invariant checked in claim C10. -/
def hubInv (st : HubState) : Prop :=
  ∀ r : String, statsOf st r = (histOf st r).length

-- Association-list helper lemmas.

theorem lookupA_updD_self (m : List (String × α)) (k : String) (d : α) (f : α → α) :
    lookupA (updD m k d f) k = some (f ((lookupA m k).getD d)) := by
  induction m with
  | nil => simp [lookupA, updD]
  | cons p rest ih =>
    obtain ⟨k', v'⟩ := p
    by_cases h : k' = k <;> simp [lookupA, updD, h, ih]

theorem lookupA_updD_other (m : List (String × α)) (k k' : String) (d : α) (f : α → α)
    (h : k' ≠ k) : lookupA (updD m k d f) k' = lookupA m k' := by
  induction m with
  | nil => simp [lookupA, updD, Ne.symm h]
  | cons p rest ih =>
    obtain ⟨k₀, v₀⟩ := p
    by_cases h0 : k₀ = k
    · subst h0
      simp [lookupA, updD, Ne.symm h]
    · simp [lookupA, updD, h0, ih]

theorem lookupA_setStatus_self (m : List (String × Session)) (k : String) (s : String) :
    lookupA (setStatus m k s) k = (lookupA m k).map (fun v => { v with status := s }) := by
  induction m with
  | nil => simp [lookupA, setStatus]
  | cons p rest ih =>
    obtain ⟨k', v'⟩ := p
    by_cases h : k' = k <;> simp [lookupA, setStatus, h, ih]

theorem lookupA_setStatus_other (m : List (String × Session)) (k k' s : String)
    (h : k' ≠ k) : lookupA (setStatus m k s) k' = lookupA m k' := by
  induction m with
  | nil => simp [lookupA, setStatus]
  | cons p rest ih =>
    obtain ⟨k₀, v₀⟩ := p
    by_cases h0 : k₀ = k
    · subst h0
      simp [lookupA, setStatus, Ne.symm h, ih]
    · simp [lookupA, setStatus, h0, ih]

theorem lookupA_not_mem (m : List (String × α)) (k : String)
    (h : k ∉ m.map Prod.fst) : lookupA m k = none := by
  induction m with
  | nil => rfl
  | cons p rest ih =>
    obtain ⟨k', v'⟩ := p
    simp only [List.map_cons, List.mem_cons] at h
    push_neg at h
    simp [lookupA, Ne.symm h.1, ih h.2]

/-! Room agent (`room_stream.py`, class `RoomTranscriptionServer`). -/

/-- What a `websocket.send` on an open socket does: succeeds, raises
`websockets.exceptions.ConnectionClosed`, or raises some other exception. -/
inductive SendOutcome where
  | ok
  | connClosed
  | otherError
deriving DecidableEq

/-- The network environment: a schedule of outcomes for `websockets.connect`
attempts (`true` = the attempt succeeds) and for sends on an open socket.
An exhausted schedule defaults to failed connects and successful sends. -/
structure NetEnv where
  connOk : List Bool
  sendOut : List SendOutcome
deriving DecidableEq

/-- Consume the next `websockets.connect` outcome. -/
def popConn (env : NetEnv) : Bool × NetEnv :=
  match env.connOk with
  | [] => (false, env)
  | b :: rest => (b, { env with connOk := rest })

/-- Consume the next open-socket `websocket.send` outcome. -/
def popSend (env : NetEnv) : SendOutcome × NetEnv :=
  match env.sendOut with
  | [] => (SendOutcome.ok, env)
  | o :: rest => (o, { env with sendOut := rest })

/-- Externally visible agent actions, in occurrence order. -/
inductive AEffect where
  | sentToHub (e : Event)
  | storedLocally (e : Event)
  | slept (seconds : Nat)
  | recorderShutdown
  | closedSocket
deriving DecidableEq

/-- The mutable fields of `RoomTranscriptionServer`.  `websocket` is `none`
before any connect; `some true` is an open socket, `some false` a closed one
(a closed socket object is still truthy in Python). -/
structure AgentState where
  room_name : String
  is_connected : Bool
  websocket : Option Bool
  buffer : List Event
  transcription_counter : Nat
  current_transcription : String
deriving DecidableEq

/-- `__init__`: not connected, no socket, counter 0. -/
def initAgent (room : String) : AgentState :=
  ⟨room, false, none, [], 0, ""⟩

/-- Result of running an agent coroutine: final state, remaining network
schedule, and the effect trace. -/
structure AgentRun where
  state : AgentState
  env : NetEnv
  effects : List AEffect
deriving DecidableEq

/-- The greeting sent right after a successful connect:
`{"type": "connection", "room": ..., "status": "connected", "timestamp": now}`. -/
def connectionEvent (now : Nat) (room : String) : Event :=
  { type := MsgType.connection, room := room, status := some "connected", timestamp := now }

/-- The shutdown notice:
`{"type": "disconnection", "room": ..., "status": "disconnected", "timestamp": now}`. -/
def disconnectionEvent (now : Nat) (room : String) : Event :=
  { type := MsgType.disconnection, room := room, status := some "disconnected",
    timestamp := now }

/-- The retry loop of `connect_to_hub`, parametrized by the `send_to_hub`
used for the greeting.  `max_retries = 5` enters as `remaining`; `attempt`
tracks the loop index for the `attempt < max_retries - 1` guard; `delay`
starts at 2 and doubles after each failed attempt.  A successful attempt
sets the socket, marks the agent connected, sends the greeting and returns
`True`; exhausting the loop returns `False`. -/
def connectToHubAux (send : Event → AgentState → NetEnv → AgentRun) (now : Nat) :
    Nat → Nat → Nat → AgentState → NetEnv → Bool × AgentRun
  | 0, _, _, st, env => (false, ⟨st, env, []⟩)
  | remaining + 1, attempt, delay, st, env =>
    let (ok, env1) := popConn env
    if ok then
      let st1 := { st with websocket := some true, is_connected := true }
      (true, send (connectionEvent now st1.room_name) st1 env1)
    else if attempt < 4 then
      let (b, run) := connectToHubAux send now remaining (attempt + 1) (2 * delay) st env1
      (b, ⟨run.state, run.env, AEffect.slept delay :: run.effects⟩)
    else
      (false, ⟨st, env1, []⟩)

/-- `send_to_hub(data)`.  If the agent is not connected or has no socket the
event is stored locally.  Otherwise the send is attempted: a send on a
closed socket raises `ConnectionClosed` deterministically, an open socket
takes the next scheduled outcome.  On `ConnectionClosed` the agent marks
itself disconnected and re-enters `connect_to_hub` (the `fuel` argument
bounds that mutual recursion); on any other exception the event is stored
locally. -/
def sendToHub (now : Nat) : Nat → Event → AgentState → NetEnv → AgentRun
  | fuel, data, st, env =>
    match st.is_connected, st.websocket with
    | true, some sock =>
      let (out, env1) := if sock then popSend env else (SendOutcome.connClosed, env)
      match out with
      | .ok => ⟨st, env1, [AEffect.sentToHub data]⟩
      | .otherError =>
        ⟨{ st with buffer := st.buffer ++ [data] }, env1, [AEffect.storedLocally data]⟩
      | .connClosed =>
        let st1 := { st with is_connected := false }
        match fuel with
        | 0 => ⟨st1, env1, []⟩
        | f + 1 =>
          (connectToHubAux (fun d s e => sendToHub now f d s e) now 5 0 2 st1 env1).2
    | _, _ =>
      ⟨{ st with buffer := st.buffer ++ [data] }, env, [AEffect.storedLocally data]⟩

/-- `connect_to_hub()` with `max_retries = 5` and `retry_delay = 2`. -/
def connectToHub (now fuel : Nat) (st : AgentState) (env : NetEnv) : Bool × AgentRun :=
  connectToHubAux (fun d s e => sendToHub now fuel d s e) now 5 0 2 st env

/-- Python `str.strip()` (whitespace from both ends). -/
def pyStrip (s : String) : String :=
  ⟨((s.toList.dropWhile Char.isWhitespace).reverse.dropWhile Char.isWhitespace).reverse⟩

/-- Python truthiness of `text.strip()`: nonempty after stripping. -/
def stripTruthy (s : String) : Bool :=
  !(pyStrip s).isEmpty

/-- The partial-update message built by `on_partial_transcription`: its `id`
field is the value of `self.transcription_counter` at call time. -/
def partialEvent (now : Nat) (text : String) (st : AgentState) : Event :=
  { type := MsgType.partialMsg, room := st.room_name, text := some text,
    timestamp := now, id := some st.transcription_counter }

/-- `on_partial_transcription(text)`: record the text and hand the partial
message to `send_to_hub`. -/
def onPartialTranscription (now fuel : Nat) (text : String) (st : AgentState)
    (env : NetEnv) : AgentRun :=
  let st1 := { st with current_transcription := text }
  sendToHub now fuel (partialEvent now text st1) st1 env

/-- `process_final_text(text)`: only a transcription that is nonempty after
stripping increments the counter and queues a `final` event whose `id` is
the freshly incremented counter and whose confidence is 0.9. -/
def processFinalText (now : Nat) (text : String) (st : AgentState) :
    AgentState × Option Event :=
  if stripTruthy text then
    let st1 := { st with transcription_counter := st.transcription_counter + 1 }
    (st1, some { type := MsgType.finalMsg, room := st.room_name,
                 text := some (pyStrip text), timestamp := now,
                 id := some st1.transcription_counter, confidence_tenths := some 9 })
  else (st, none)

/-- The worker loop of `start_transcription` feeding utterances through
`process_final_text`, collecting the queued `final` events in order. -/
def runFinals (now : Nat) : List String → AgentState → AgentState × List Event
  | [], st => (st, [])
  | t :: ts, st =>
    ((runFinals now ts (processFinalText now t st).1).1,
     (processFinalText now t st).2.toList ++
       (runFinals now ts (processFinalText now t st).1).2)

/-- `shutdown()`: signal the recorder, then — if a socket object exists
(open or closed, both are truthy) — send the disconnection notice through
`send_to_hub` and close the socket. -/
def shutdown (now fuel : Nat) (st : AgentState) (env : NetEnv) : AgentRun :=
  match st.websocket with
  | none => ⟨st, env, [AEffect.recorderShutdown]⟩
  | some _ =>
    let r := sendToHub now fuel (disconnectionEvent now st.room_name) st env
    ⟨{ r.state with websocket := some false }, r.env,
      AEffect.recorderShutdown :: (r.effects ++ [AEffect.closedSocket])⟩

/-! Spec-side registry operations, used to state the refinement claim C2.
These follow the spec's `applyEvent` wording, amended only in that
`last_seen` is the hub's processing-time clock `now`, which is what the
source writes (`time.time()`), rather than the event's carried timestamp. -/

/-- Spec wording: upsert the room's session to Connected, refreshing
`last_seen`. -/
def markAlive (now : Nat) (room : String) (st : HubState) : HubState :=
  { st with connected_rooms := upsertA st.connected_rooms room ⟨"connected", now⟩ }

/-- Spec wording: if a session exists, set its status to Disconnected,
retaining the session. -/
def markDisconnected (room : String) (st : HubState) : HubState :=
  { st with connected_rooms := setStatus st.connected_rooms room "disconnected" }

/-- Spec wording: append the final event to the room's history and
increment the room's stats counter. -/
def recordFinal (e : Event) (st : HubState) : HubState :=
  { st with
    transcription_history := updD st.transcription_history e.room [] (fun h => h ++ [e]),
    room_stats := updD st.room_stats e.room 0 (fun n => n + 1) }

/-- The spec's `applyEvent` case analysis (§4.2), with the `last_seen`
amendment: Connection upserts to Connected; Disconnection marks an existing
session Disconnected and otherwise changes nothing; Partial and Final upsert
to Connected, and Final additionally records the event. -/
def applyEventAmended (now : Nat) (e : Event) (st : HubState) : HubState :=
  match e.type with
  | .connection => markAlive now e.room st
  | .disconnection =>
    if (lookupA st.connected_rooms e.room).isSome then markDisconnected e.room st else st
  | .partialMsg => markAlive now e.room st
  | .finalMsg => recordFinal e (markAlive now e.room st)

/-- The number of `room_connected` replies the claim C7 expects for a room:
one if its session is currently `'connected'`, zero otherwise. -/
def expectedStatusCount (m : List (String × Session)) (r : String) : Nat :=
  match lookupA m r with
  | some v => if v.status = "connected" then 1 else 0
  | none => 0

/-- Occurrence count of a viewer-facing message in an emit list. -/
def countEmit (e : Emit) : List Emit → Nat
  | [] => 0
  | x :: rest => (if x = e then 1 else 0) + countEmit e rest

-- Further helper lemmas about the hub operations.

theorem countEmit_status_list (m : List (String × Session)) (r : String)
    (h : (m.map Prod.fst).Nodup) :
    countEmit (Emit.room_connected r)
      (m.filterMap (fun p =>
        if p.2.status = "connected" then some (Emit.room_connected p.1) else none))
      = expectedStatusCount m r := by
  induction m with
  | nil => rfl
  | cons p rest ih =>
    obtain ⟨k, v⟩ := p
    simp only [List.map_cons, List.nodup_cons] at h
    obtain ⟨hk, hrest⟩ := h
    by_cases hkr : k = r
    · subst hkr
      have hnone : lookupA rest k = none := lookupA_not_mem rest k hk
      by_cases hs : v.status = "connected" <;>
        simp [List.filterMap_cons, hs, countEmit, expectedStatusCount, lookupA,
          ih hrest, hnone]
    · by_cases hs : v.status = "connected" <;>
        simp [List.filterMap_cons, hs, countEmit, expectedStatusCount, lookupA,
          hkr, ih hrest]

theorem runMsgs_append (now : Nat) (xs ys : List RawMsg) (s : HubState × Option String) :
    runMsgs now (xs ++ ys) s
      = ((runMsgs now ys (runMsgs now xs s).1).1,
         (runMsgs now xs s).2 ++ (runMsgs now ys (runMsgs now xs s).1).2) := by
  induction xs generalizing s with
  | nil => simp [runMsgs]
  | cons m ms ih => simp [runMsgs, ih, List.append_assoc]

theorem processRoomMessage_connection_frame (now : Nat) (e : Event) (st : HubState)
    (h : e.type = MsgType.connection) :
    (processRoomMessage now e st).1.transcription_history = st.transcription_history
    ∧ (processRoomMessage now e st).1.room_stats = st.room_stats := by
  simp [processRoomMessage, h]

/-! Claim theorems.  Concrete inputs used by counterexamples and witnesses. -/

/-- A wire `connection` message carrying timestamp 5. -/
def evHallConn : Event :=
  { type := MsgType.connection, room := "Hall A", status := some "connected",
    timestamp := 5 }

/-- A wire `final` message, as `process_final_text` builds one. -/
def finalHallA : Event :=
  { type := MsgType.finalMsg, room := "Hall A", text := some "the king was crowned",
    timestamp := 11, id := some 1, confidence_tenths := some 9 }

/-- Scenario E registry: two connected rooms, one disconnected. -/
def stScenE : HubState :=
  ⟨[("Hall A", ⟨"connected", 1⟩), ("Hall B", ⟨"connected", 2⟩),
    ("Crypt", ⟨"disconnected", 3⟩)], [], []⟩

/-- C2 counterexample: processing a Connection event that carries timestamp 5
while the hub clock reads 7 records `last_seen = 7` — the processing-time
clock — not the event's timestamp, refuting the claim as stated. -/
theorem last_seen_is_clock_not_event_timestamp :
    lookupA ((processRoomMessage 7 evHallConn hubInit).1.connected_rooms) "Hall A"
      = some ⟨"connected", 7⟩
    ∧ evHallConn.timestamp = 5
    ∧ lookupA ((processRoomMessage 7 evHallConn hubInit).1.connected_rooms) "Hall A"
      ≠ some ⟨"connected", evHallConn.timestamp⟩ := by
  decide

/-- C2 (amended): `process_room_message` performs exactly the spec's
`applyEvent` case analysis — Connection upserts the session to Connected,
Disconnection flips an existing session to Disconnected and otherwise changes
nothing, Partial and Final upsert to Connected, Final additionally appends to
the room's history and increments its stats — with `last_seen` set to the
hub's processing-time clock rather than the event's timestamp. -/
theorem processRoomMessage_is_applyEvent :
    ∀ (now : Nat) (data : Event) (st : HubState),
      (processRoomMessage now data st).1 = applyEventAmended now data st := by
  intro now data st
  cases h : data.type <;>
    simp [processRoomMessage, applyEventAmended, markAlive, markDisconnected,
      recordFinal, h]

/-- C6: a Disconnection event leaves the room's transcript history and stats
untouched, changes at most the status field of the room's session (keys and
`last_seen` are preserved, other rooms' sessions are untouched), and a
subsequent Connection event still leaves history and stats as they were. -/
theorem disconnection_preserves_history_and_stats :
    ∀ (now : Nat) (st : HubState) (e : Event), e.type = MsgType.disconnection →
      (processRoomMessage now e st).1.transcription_history = st.transcription_history
      ∧ (processRoomMessage now e st).1.room_stats = st.room_stats
      ∧ lookupA (processRoomMessage now e st).1.connected_rooms e.room
          = (lookupA st.connected_rooms e.room).map
              (fun v => { v with status := "disconnected" })
      ∧ (∀ r' : String, r' ≠ e.room →
          lookupA (processRoomMessage now e st).1.connected_rooms r'
            = lookupA st.connected_rooms r')
      ∧ (∀ (now2 : Nat) (e2 : Event), e2.type = MsgType.connection →
          (processRoomMessage now2 e2
              (processRoomMessage now e st).1).1.transcription_history
            = st.transcription_history
          ∧ (processRoomMessage now2 e2 (processRoomMessage now e st).1).1.room_stats
            = st.room_stats) := by
  intro now st e he
  have hhist : (processRoomMessage now e st).1.transcription_history
      = st.transcription_history := by
    by_cases hm : (lookupA st.connected_rooms e.room).isSome <;>
      simp [processRoomMessage, he, hm]
  have hstats : (processRoomMessage now e st).1.room_stats = st.room_stats := by
    by_cases hm : (lookupA st.connected_rooms e.room).isSome <;>
      simp [processRoomMessage, he, hm]
  refine ⟨hhist, hstats, ?_, ?_, ?_⟩
  · by_cases hm : (lookupA st.connected_rooms e.room).isSome
    · simp [processRoomMessage, he, hm, lookupA_setStatus_self]
    · rw [Option.not_isSome_iff_eq_none] at hm
      simp [processRoomMessage, he, hm]
  · intro r' hr'
    by_cases hm : (lookupA st.connected_rooms e.room).isSome
    · simp [processRoomMessage, he, hm, lookupA_setStatus_other _ _ _ _ hr']
    · simp [processRoomMessage, he, hm]
  · intro now2 e2 he2
    have := processRoomMessage_connection_frame now2 e2 (processRoomMessage now e st).1 he2
    exact ⟨this.1.trans hhist, this.2.trans hstats⟩

/-- C6 witness: the frame conditions instantiated at a concrete registry and a
concrete disconnection event. -/
theorem disconnection_frame_witness :
    (processRoomMessage 2 (disconnectionEvent 2 "Hall A") stScenE).1.transcription_history
      = stScenE.transcription_history
    ∧ (processRoomMessage 2 (disconnectionEvent 2 "Hall A") stScenE).1.room_stats
      = stScenE.room_stats
    ∧ (processRoomMessage 9 evHallConn
        (processRoomMessage 2 (disconnectionEvent 2 "Hall A") stScenE).1).1.room_stats
      = stScenE.room_stats :=
  ⟨(disconnection_preserves_history_and_stats 2 stScenE
      (disconnectionEvent 2 "Hall A") rfl).1,
   (disconnection_preserves_history_and_stats 2 stScenE
      (disconnectionEvent 2 "Hall A") rfl).2.1,
   ((disconnection_preserves_history_and_stats 2 stScenE
      (disconnectionEvent 2 "Hall A") rfl).2.2.2.2 9 evHallConn rfl).2⟩

/-- C7: a viewer's `get_room_status` request is answered with exactly one
`room_connected` message per room whose session is `'connected'` and no
message for a room that is absent or `'disconnected'` (assuming the
registry's keys are distinct, as Python dict keys are). -/
theorem statusRequest_one_reply_per_connected_room :
    ∀ (st : HubState) (r : String), (st.connected_rooms.map Prod.fst).Nodup →
      countEmit (Emit.room_connected r) (handleRoomStatusRequest st)
        = expectedStatusCount st.connected_rooms r := by
  intro st r h
  exact countEmit_status_list st.connected_rooms r h

/-- C7 witness: Scenario E — two connected rooms each get exactly one reply,
the disconnected room gets none. -/
theorem statusRequest_witness :
    countEmit (Emit.room_connected "Hall A") (handleRoomStatusRequest stScenE) = 1
    ∧ countEmit (Emit.room_connected "Hall B") (handleRoomStatusRequest stScenE) = 1
    ∧ countEmit (Emit.room_connected "Crypt") (handleRoomStatusRequest stScenE) = 0 :=
  ⟨(statusRequest_one_reply_per_connected_room stScenE "Hall A" (by decide)).trans
      (by decide),
   (statusRequest_one_reply_per_connected_room stScenE "Hall B" (by decide)).trans
      (by decide),
   (statusRequest_one_reply_per_connected_room stScenE "Crypt" (by decide)).trans
      (by decide)⟩

/-- C8: a malformed (non-JSON) frame is a no-op for the handler — the registry
and remembered room are unchanged and nothing is emitted — and a whole
connection run with the malformed frame spliced in is identical to the run
without it: later frames are still processed and the session is not
terminated. -/
theorem malformed_frame_discarded :
    ∀ (now : Nat) (pre post : List RawMsg) (st : HubState),
      (∀ s : HubState × Option String, handlerStep now s RawMsg.malformed = (s, []))
      ∧ connectionHandler now (pre ++ RawMsg.malformed :: post) st
          = connectionHandler now (pre ++ post) st := by
  intro now pre post st
  refine ⟨fun s => rfl, ?_⟩
  have hstep : ∀ s, runMsgs now (RawMsg.malformed :: post) s = runMsgs now post s := by
    intro s
    simp [runMsgs, handlerStep]
  have key : runMsgs now (pre ++ RawMsg.malformed :: post) (st, none)
      = runMsgs now (pre ++ post) (st, none) := by
    rw [runMsgs_append, runMsgs_append, hstep]
  simp [connectionHandler, key]

/-- C10: every registry mutation preserves the invariant that each room's
stats counter equals the length of its transcript history — both are bumped
together, only on a Final event. -/
theorem stats_equal_history_length :
    ∀ (now : Nat) (data : Event) (st : HubState), hubInv st →
      hubInv (processRoomMessage now data st).1 := by
  intro now data st h r
  cases ht : data.type with
  | connection => simpa [processRoomMessage, ht, statsOf, histOf] using h r
  | disconnection =>
    by_cases hm : (lookupA st.connected_rooms data.room).isSome <;>
      simpa [processRoomMessage, ht, hm, statsOf, histOf] using h r
  | partialMsg => simpa [processRoomMessage, ht, statsOf, histOf] using h r
  | finalMsg =>
    by_cases hr : r = data.room
    · subst hr
      have h1 := lookupA_updD_self st.room_stats data.room 0 (fun n => n + 1)
      have h2 := lookupA_updD_self st.transcription_history data.room []
        (fun l => l ++ [data])
      have hh := h data.room
      simp only [statsOf, histOf] at hh
      simp [processRoomMessage, ht, statsOf, histOf, h1, h2, hh]
    · have h1 := lookupA_updD_other st.room_stats data.room r 0 (fun n => n + 1) hr
      have h2 := lookupA_updD_other st.transcription_history data.room r []
        (fun l => l ++ [data]) hr
      have hh := h r
      simp only [statsOf, histOf] at hh
      simp [processRoomMessage, ht, statsOf, histOf, h1, h2, hh]

/-- C10 witness: the invariant holds initially and after recording one final
event. -/
theorem stats_equal_history_witness :
    hubInv (processRoomMessage 3 finalHallA hubInit).1 :=
  stats_equal_history_length 3 finalHallA hubInit (fun _ => rfl)

-- Helper lemmas for the agent-side claims.

theorem filterMap_of_map_some (l : List α) (f : α → Option β) (ys : List β)
    (h : l.map f = ys.map some) : l.filterMap f = ys := by
  induction l generalizing ys with
  | nil =>
    cases ys with
    | nil => rfl
    | cons y ys => simp at h
  | cons x xs ih =>
    cases ys with
    | nil => simp at h
    | cons y ys =>
      simp only [List.map_cons, List.cons.injEq] at h
      simp [List.filterMap_cons, h.1, ih ys h.2]

theorem chainLt_range' (n : Nat) :
    ∀ s : Nat, List.Chain' (fun a b : Nat => a < b) (List.range' s n) := by
  induction n with
  | zero => intro s; simp
  | succ m ih =>
    intro s
    rw [List.range'_succ]
    refine List.chain'_cons'.mpr ⟨?_, ih (s + 1)⟩
    intro y hy
    cases m with
    | zero => simp [List.range'] at hy
    | succ k =>
      rw [List.range'_succ] at hy
      simp at hy
      omega

theorem runFinals_ids (now : Nat) (ts : List String) (st : AgentState) :
    (runFinals now ts st).2.map Event.id
      = (List.range' (st.transcription_counter + 1)
          ((ts.filter stripTruthy).length)).map some
    ∧ (runFinals now ts st).1.transcription_counter
      = st.transcription_counter + (ts.filter stripTruthy).length := by
  induction ts generalizing st with
  | nil => simp [runFinals]
  | cons t ts ih =>
    by_cases h : stripTruthy t
    · have H := ih { st with transcription_counter := st.transcription_counter + 1 }
      constructor
      · simp [runFinals, processFinalText, h, List.filter_cons, H.1, List.range'_succ]
      · simp [runFinals, processFinalText, h, List.filter_cons, H.2]
        omega
    · have H := ih st
      constructor
      · simpa [runFinals, processFinalText, h, List.filter_cons] using H.1
      · simpa [runFinals, processFinalText, h, List.filter_cons] using H.2

/-- Agent state of a connected agent for room `"Hall A"`. -/
def stHallA : AgentState := ⟨"Hall A", true, some true, [], 0, ""⟩

/-- Network schedule where the next open-socket send raises
`ConnectionClosed` and every reconnect attempt fails (hub unreachable). -/
def envClosedSend : NetEnv := ⟨[], [SendOutcome.connClosed]⟩

/-- Network schedule with one successful send and no reachable hub. -/
def envOneOk : NetEnv := ⟨[], [SendOutcome.ok]⟩

/-- C1: at the failing input — the agent believes it is Connected and the
network write raises `ConnectionClosed`, the hub unreachable for the
reconnect — `send_to_hub` drops the final event: the local buffer stays
empty, no `storedLocally` or `sentToHub` effect occurs, and the only
observable actions are the reconnect backoff sleeps.  The event thus neither
reaches the hub nor the Local Buffer, contradicting the claim (and the
source's own stated intent of storing locally on send errors). -/
theorem final_event_dropped_on_closed_transport :
    (sendToHub 12 8 finalHallA stHallA envClosedSend).state.buffer = []
    ∧ (sendToHub 12 8 finalHallA stHallA envClosedSend).state.is_connected = false
    ∧ (sendToHub 12 8 finalHallA stHallA envClosedSend).effects
        = [AEffect.slept 2, AEffect.slept 4, AEffect.slept 8, AEffect.slept 16]
    ∧ AEffect.storedLocally finalHallA
        ∉ (sendToHub 12 8 finalHallA stHallA envClosedSend).effects
    ∧ AEffect.sentToHub finalHallA
        ∉ (sendToHub 12 8 finalHallA stHallA envClosedSend).effects := by
  decide

/-- C3 counterexample: before any final event the counter is 0, so the
partial message carries `id = 0` while `counter + 1 = 1` — the claimed id. -/
theorem partial_id_is_not_counter_plus_one :
    (partialEvent 5 "the king" (initAgent "Hall A")).id = some 0
    ∧ (initAgent "Hall A").transcription_counter + 1 = 1
    ∧ (partialEvent 5 "the king" (initAgent "Hall A")).id
        ≠ some ((initAgent "Hall A").transcription_counter + 1) := by
  decide

/-- C3 (amended): the Partial event carries `id` equal to the *current* final
counter — the id of the most recently emitted Final, 0 before any — which is
one less than the id of the Final it will resolve into, not equal to it. -/
theorem partial_id_equals_current_counter :
    ∀ (now : Nat) (text : String) (st : AgentState),
      (partialEvent now text st).id = some st.transcription_counter
      ∧ (∀ (now2 : Nat) (t : String), stripTruthy t = true →
          (processFinalText now2 t st).2.map Event.id
            = some (some (st.transcription_counter + 1))) := by
  intro now text st
  refine ⟨rfl, ?_⟩
  intro now2 t ht
  simp [processFinalText, ht]

/-- C3 witness: the amended statement at a fresh agent and the word
`"hello"`. -/
theorem partial_id_counter_witness :
    (partialEvent 6 "hello" (initAgent "Hall B")).id = some 0
    ∧ (processFinalText 6 "hello" (initAgent "Hall B")).2.map Event.id
        = some (some 1) :=
  ⟨(partial_id_equals_current_counter 6 "hello" (initAgent "Hall B")).1,
   (partial_id_equals_current_counter 6 "hello" (initAgent "Hall B")).2 6 "hello"
     (by decide)⟩

/-- C4: `connect_to_hub` retries failed attempts with exponential backoff:
when all five attempts fail it waits 2, 4, 8, 16 seconds — starting at the
initial delay 2, doubling after each failure, never beyond 16 — consumes
exactly five attempt outcomes (the configured limit, leaving the rest of the
schedule untouched) and then reports failure. -/
theorem connect_retries_with_exponential_backoff :
    ∀ (now fuel : Nat) (st : AgentState) (sOut : List SendOutcome) (rest : List Bool),
      connectToHub now fuel st ⟨List.replicate 5 false ++ rest, sOut⟩
        = (false, ⟨st, ⟨rest, sOut⟩,
            [AEffect.slept 2, AEffect.slept 4, AEffect.slept 8, AEffect.slept 16]⟩)
      ∧ List.Chain' (fun a b => b = 2 * a) [2, 4, 8, 16] := by
  intro now fuel st sOut rest
  exact ⟨rfl, by simp [List.chain'_cons]⟩

/-- C5: from a fresh agent, the ids carried by the emitted Final events are
exactly 1, 2, …, n where n is the number of final transcriptions that are
nonempty after stripping — a strictly increasing sequence starting at 1,
with exactly one counter increment per nonempty final. -/
theorem final_ids_strictly_increasing_from_one :
    ∀ (room : String) (now : Nat) (ts : List String),
      (runFinals now ts (initAgent room)).2.map Event.id
        = (List.range' 1 ((ts.filter stripTruthy).length)).map some
      ∧ (runFinals now ts (initAgent room)).1.transcription_counter
        = (ts.filter stripTruthy).length
      ∧ List.Chain' (fun a b : Nat => a < b)
          ((runFinals now ts (initAgent room)).2.filterMap Event.id) := by
  intro room now ts
  have H := runFinals_ids now ts (initAgent room)
  refine ⟨by simpa [initAgent] using H.1, by simpa [initAgent] using H.2, ?_⟩
  have hfm : (runFinals now ts (initAgent room)).2.filterMap Event.id
      = List.range' 1 ((ts.filter stripTruthy).length) :=
    filterMap_of_map_some _ _ _ (by simpa [initAgent] using H.1)
  rw [hfm]
  exact chainLt_range' _ 1

/-- C9 counterexample: after a clean shutdown of a connected agent (one
successful disconnection send, socket closed), a second shutdown changes the
state again and produces further effects — so shutdown is not idempotent. -/
theorem shutdown_not_idempotent :
    (shutdown 3 8 (shutdown 3 8 stHallA envOneOk).state
        (shutdown 3 8 stHallA envOneOk).env).state
      ≠ (shutdown 3 8 stHallA envOneOk).state
    ∧ (shutdown 3 8 (shutdown 3 8 stHallA envOneOk).state
        (shutdown 3 8 stHallA envOneOk).env).effects ≠ [] := by
  decide

/-- C9 (amended): shutdown clears neither `is_connected` nor the socket
reference, so it is not idempotent: called again in the post-shutdown shape
(still marked connected, socket object present but closed, hub unreachable)
it re-signals the recorder, re-attempts the disconnection send — which fails
on the closed transport, marks the agent disconnected and runs a full
reconnect backoff cycle — and closes the socket again. -/
theorem shutdown_second_call_not_noop :
    ∀ (now fuel : Nat) (room cur : String) (buf : List Event) (cnt : Nat)
      (sOut : List SendOutcome),
      (shutdown now (fuel + 1) ⟨room, true, some false, buf, cnt, cur⟩
          ⟨[], sOut⟩).state.is_connected = false
      ∧ (shutdown now (fuel + 1) ⟨room, true, some false, buf, cnt, cur⟩
          ⟨[], sOut⟩).effects
        = [AEffect.recorderShutdown, AEffect.slept 2, AEffect.slept 4,
           AEffect.slept 8, AEffect.slept 16, AEffect.closedSocket] := by
  intro now fuel room cur buf cnt sOut
  exact ⟨rfl, rfl⟩

end Castle
